import Mathlib

/-!
# Verification of the dancydots simulation core

Shallow embedding of the simulation core of the dancydots repository:
the value-noise kernel and field registry (fields.js), the dot placement
engine (canvas.js), the scene-state derivation (state.js), the per-frame
physics tick (animation.js) and the exported standalone animation loop
(export.js template).

Numbers: JavaScript numbers are modelled by exact arithmetic — `ℚ` where the
source only adds, multiplies, compares and floors (noise kernel, placement),
`ℝ` where the source uses `Math.sqrt` / `Math.sin` / `Math.exp` (collision
response, random-walk field, vortex field).  Double-precision rounding is not
modelled; every concrete input used in a theorem below is one on which the
source computation is exact in IEEE doubles as well.  JavaScript 32-bit
integer operations (`<<`, `^`, `&`) are modelled explicitly on 32-bit
residues.
-/

namespace Dancy

/- ------------------------------------------------------------------ -/
/- Noise kernel (fields.js: hash3, fade, noise3)                      -/
/- ------------------------------------------------------------------ -/

/-- The unsigned 32-bit representation of an integer (JS `ToUint32`). -/
def u32 (n : ℤ) : ℕ := (n % (2 ^ 32)).toNat

/-- The signed value of a 32-bit representation (JS `ToInt32` result). -/
def toSigned32 (v : ℕ) : ℤ := if v < 2 ^ 31 then (v : ℤ) else (v : ℤ) - 2 ^ 32

/-- `hash3(i, j, k)` from fields.js:

    let n = i + j * 57 + k * 131;
    n = (n << 13) ^ n;
    const nn = (n * (n * n * 15731 + 789221) + 1376312589) & 0x7fffffff;
    return nn;

`<<` and `^` act on 32-bit two's-complement values; `& 0x7fffffff` keeps the
low 31 bits, so the result lies in `[0, 2^31)`.  The cubic polynomial is a
double multiplication in JS; it is modelled exactly here (all theorems below
evaluate it only where the double computation is exact, and the final 31-bit
mask bounds the result identically in both readings). -/
def hash3 (i j k : ℤ) : ℕ :=
  let n0 : ℤ := i + j * 57 + k * 131
  let s : ℕ := (u32 n0 * 2 ^ 13) % 2 ^ 32
  let x : ℕ := Nat.xor s (u32 n0)
  let m : ℤ := toSigned32 x
  let nn : ℤ := m * (m * m * 15731 + 789221) + 1376312589
  u32 nn % 2 ^ 31

/-- `fade(t) = t*t*t*(t*(t*6 - 15) + 10)` (fields.js). -/
def fade (t : ℚ) : ℚ := t * t * t * (t * (t * 6 - 15) + 10)

/-- The `corner` helper of `noise3`: `hash3(ix, iy, it) / 1073741824.0`
(the normalizing constant is `2^30`). -/
def corner (i j k : ℤ) : ℚ := (hash3 i j k : ℚ) / 1073741824

/-- `lerp(a, b, t) = a + (b - a) * t` (fields.js). -/
def lerp (a b t : ℚ) : ℚ := a + (b - a) * t

/-- `noise3(x, y, t)` from fields.js: trilinear interpolation of the eight
lattice-corner hash values, with smoothstep-faded fractional coordinates.
`Math.floor` is mathematical floor (toward `-∞`). -/
def noise3 (x y t : ℚ) : ℚ :=
  let xi : ℤ := ⌊x⌋
  let yi : ℤ := ⌊y⌋
  let ti : ℤ := ⌊t⌋
  let xf : ℚ := x - (xi : ℚ)
  let yf : ℚ := y - (yi : ℚ)
  let tf : ℚ := t - (ti : ℚ)
  let u := fade xf
  let v := fade yf
  let w := fade tf
  let c000 := corner xi yi ti
  let c100 := corner (xi + 1) yi ti
  let c010 := corner xi (yi + 1) ti
  let c110 := corner (xi + 1) (yi + 1) ti
  let c001 := corner xi yi (ti + 1)
  let c101 := corner (xi + 1) yi (ti + 1)
  let c011 := corner xi (yi + 1) (ti + 1)
  let c111 := corner (xi + 1) (yi + 1) (ti + 1)
  let x00 := lerp c000 c100 u
  let x10 := lerp c010 c110 u
  let x01 := lerp c001 c101 u
  let x11 := lerp c011 c111 u
  let y0 := lerp x00 x10 v
  let y1 := lerp x01 x11 v
  lerp y0 y1 w

/- ------------------------------------------------------------------ -/
/- Placement engine (canvas.js)                                       -/
/- ------------------------------------------------------------------ -/

/-- A dot as produced by the placement engine (canvas.js).  The source object
carries `{x, y, x0, y0, layer, color, colorIndex}`; the color string is not
modelled (only the palette index `colorIndex`).  `placed` is a ghost flag not
present in the source object: it records whether the rejection-sampling loop
accepted the position within the attempt cap (`placed` in `buildLayeredDots`);
it is used only to state the placement separation invariant. -/
structure PDot where
  x : ℚ
  y : ℚ
  x0 : ℚ
  y0 : ℚ
  layer : Option ℕ
  colorIndex : ℕ
  placed : Bool
deriving DecidableEq

/-- One entry of `STATE.layers` as consumed by placement: requested dot count
(`count`, which the source defaults to 50 when `undefined`), pixel radius,
softness and the palette length (`colors.length`). -/
structure LayerCfg where
  countOpt : Option ℕ
  radius : ℚ
  softness : ℚ
  numColors : ℕ
deriving DecidableEq

/-- `getPlacementRadius(layerIndex)` from canvas.js:
`layerConfig.radius * Math.max(1, layerConfig.softness || 1) * CONFIG.dotSpacing`,
with 10 as fallback when `STATE.layers[layerIndex]` is missing (also when the
index is the `null` of a uniform-grid dot). -/
def getPlacementRadius (layers : List LayerCfg) (dotSpacing : ℚ) (layer : Option ℕ) : ℚ :=
  match layer.bind (fun i => layers.get? i) with
  | none => 10
  | some c => c.radius * max 1 (if c.softness = 0 then 1 else c.softness) * dotSpacing

/-- `checkOverlap(x, y, radius, existingDots)` from canvas.js: true iff the
candidate circle is strictly closer to some existing dot than the sum of the
two placement radii (squared-distance comparison). -/
def checkOverlap (layers : List LayerCfg) (dotSpacing : ℚ) (x y radius : ℚ)
    (existingDots : List PDot) : Bool :=
  existingDots.any fun other =>
    let otherRadius := getPlacementRadius layers dotSpacing other.layer
    let dx := x - other.x
    let dy := y - other.y
    let minDist := radius + otherRadius
    decide (dx * dx + dy * dy < minDist * minDist)

/-- One candidate position: `(Math.random() - margin) * w * (1 + 2 * margin)`
for each axis with `margin = 0.3`.  `rand` is the `Math.random()` stream,
consumed at indices `ridx` (x) and `ridx + 1` (y). -/
def samplePos (rand : ℕ → ℚ) (ridx : ℕ) (w h : ℚ) : ℚ × ℚ :=
  ((rand ridx - 3/10) * w * (1 + 2 * (3/10)),
   (rand (ridx + 1) - 3/10) * h * (1 + 2 * (3/10)))

/-- The rejection-sampling attempt loop shared by `buildLayeredDots` and
`addDotsToLayer`: sample, accept if no overlap, otherwise retry while attempts
remain; when the cap is exhausted the last candidate is returned with the
accepted flag false (the source then places it unconditionally).  `fuel` is
the number of attempts remaining (the source starts at `maxAttempts = 100`);
the `0` base case is unreachable from `placeDot` below.  Returns
`(x, y, accepted, next random index)`. -/
def placeLoop (rand : ℕ → ℚ) (layers : List LayerCfg) (dotSpacing w h radius : ℚ)
    (existing : List PDot) : ℕ → ℕ → ℚ × ℚ × Bool × ℕ
  | 0, ridx => (0, 0, false, ridx)
  | fuel + 1, ridx =>
    let p := samplePos rand ridx w h
    if checkOverlap layers dotSpacing p.1 p.2 radius existing then
      if fuel = 0 then (p.1, p.2, false, ridx + 2)
      else placeLoop rand layers dotSpacing w h radius existing fuel (ridx + 2)
    else (p.1, p.2, true, ridx + 2)

/-- The attempt loop with the source's cap of 100 attempts. -/
def placeDot (rand : ℕ → ℚ) (layers : List LayerCfg) (dotSpacing w h radius : ℚ)
    (existing : List PDot) (ridx : ℕ) : ℚ × ℚ × Bool × ℕ :=
  placeLoop rand layers dotSpacing w h radius existing 100 ridx

/-- Stream consumption and palette index of `pickColorWithVariation`: an empty
palette consumes nothing and yields index 0; otherwise one draw picks
`Math.floor(Math.random() * colors.length)` and a second draw feeds the
lightness variation (the color string itself is not modelled). -/
def pickColorIndex (rand : ℕ → ℚ) (numColors : ℕ) (ridx : ℕ) : ℕ × ℕ :=
  if numColors = 0 then (0, ridx)
  else ((⌊rand ridx * numColors⌋).toNat, ridx + 2)

/-- The dot object pushed after one run of the attempt loop: current and home
position are the final candidate, the layer index is recorded, the palette
index comes from `pickColorWithVariation`, and the ghost `placed` flag records
whether the candidate was accepted within the cap. -/
def pushedDot (rand : ℕ → ℚ) (layers : List LayerCfg) (dotSpacing w h radius : ℚ)
    (li : ℕ) (numColors : ℕ) (acc : List PDot) (ridx : ℕ) : PDot :=
  let r := placeDot rand layers dotSpacing w h radius acc ridx
  { x := r.1, y := r.2.1, x0 := r.1, y0 := r.2.1,
    layer := some li,
    colorIndex := (pickColorIndex rand numColors r.2.2.2).1,
    placed := r.2.2.1 }

/-- The per-layer placement loop body shared by `buildLayeredDots` and
`addDotsToLayer`: place `n` dots of layer `li` with placement radius `radius`,
each checked against (and then pushed onto) the accumulated dot list, exactly
as the source pushes into `newDots` / `dots` while iterating.  The random
stream advances by the attempt loop's draws and then by the color pick's. -/
def placeDotsLoop (rand : ℕ → ℚ) (layers : List LayerCfg) (dotSpacing w h : ℚ)
    (li : ℕ) (radius : ℚ) (numColors : ℕ) : ℕ → List PDot → ℕ → List PDot × ℕ
  | 0, acc, ridx => (acc, ridx)
  | n + 1, acc, ridx =>
    placeDotsLoop rand layers dotSpacing w h li radius numColors n
      (acc ++ [pushedDot rand layers dotSpacing w h radius li numColors acc ridx])
      (pickColorIndex rand numColors
        (placeDot rand layers dotSpacing w h radius acc ridx).2.2.2).2

/-- The layer iteration of `buildLayeredDots`: `rem` is the suffix of
`STATE.layers` still to process and `li` the index of its head in the full
list (the source iterates `layerIndex` from 0).  The placement radius is
computed once per layer, as in the source. -/
def buildLayersAux (rand : ℕ → ℚ) (layers : List LayerCfg) (dotSpacing w h : ℚ) :
    List LayerCfg → ℕ → List PDot → ℕ → List PDot × ℕ
  | [], _, acc, ridx => (acc, ridx)
  | cfg :: rem, li, acc, ridx =>
    let r := placeDotsLoop rand layers dotSpacing w h li
      (getPlacementRadius layers dotSpacing (some li)) cfg.numColors
      (cfg.countOpt.getD 50) acc ridx
    buildLayersAux rand layers dotSpacing w h rem (li + 1) r.1 r.2

/-- `buildLayeredDots()` from canvas.js: for each layer in order, place the
requested count of dots by rejection sampling against all dots placed so far
(including earlier layers), starting from an empty list. -/
def buildLayeredDots (rand : ℕ → ℚ) (layers : List LayerCfg) (dotSpacing w h : ℚ) :
    List PDot :=
  (buildLayersAux rand layers dotSpacing w h layers 0 [] 0).1

/-- `addDotsToLayer(layerIndex, count)` from canvas.js: a no-op when
`STATE.layers[layerIndex]` is missing, otherwise append `count` dots of that
layer using the same rejection sampling against the current global dot list.
Returns the new dot list and the next random-stream index. -/
def addDotsToLayer (rand : ℕ → ℚ) (layers : List LayerCfg) (dotSpacing w h : ℚ)
    (layerIndex count : ℕ) (dots : List PDot) (ridx : ℕ) : List PDot × ℕ :=
  match layers.get? layerIndex with
  | none => (dots, ridx)
  | some cfg =>
    placeDotsLoop rand layers dotSpacing w h layerIndex
      (getPlacementRadius layers dotSpacing (some layerIndex)) cfg.numColors
      count dots ridx

/-- The backwards removal scan of `removeDotsFromLayer`, expressed on the
reversed list: walk the dots from the most recently pushed end, splicing out
those of the given layer until `count` have been removed. -/
def dropLayerDots (layerIndex : ℕ) : ℕ → List PDot → List PDot
  | _, [] => []
  | 0, l => l
  | k + 1, d :: rest =>
    if d.layer = some layerIndex then dropLayerDots layerIndex k rest
    else d :: dropLayerDots layerIndex (k + 1) rest

/-- `removeDotsFromLayer(layerIndex, count)` from canvas.js: iterate the dot
array from its end, removing dots whose layer matches until `count` have been
removed or the array is exhausted. -/
def removeDotsFromLayer (layerIndex k : ℕ) (dots : List PDot) : List PDot :=
  (dropLayerDots layerIndex k dots.reverse).reverse

/-- Number of dots of a given layer in a dot list. -/
def layerCount (layerIndex : ℕ) (dots : List PDot) : ℕ :=
  (dots.filter fun d => d.layer == some layerIndex).length

/- ------------------------------------------------------------------ -/
/- Lemmas about the backwards removal scan                            -/
/- ------------------------------------------------------------------ -/

theorem dropLayerDots_sublist (li : ℕ) : ∀ k l, List.Sublist (dropLayerDots li k l) l := by
  intro k l
  induction l generalizing k with
  | nil => cases k <;> simp [dropLayerDots]
  | cons d rest ih =>
    cases k with
    | zero => simp [dropLayerDots]
    | succ k =>
      rw [dropLayerDots]
      split
      · exact (ih k).trans (List.sublist_cons_self d rest)
      · exact List.Sublist.cons₂ d (ih (k + 1))

theorem dropLayerDots_filter (li : ℕ) : ∀ k l,
    (dropLayerDots li k l).filter (fun d => !(d.layer == some li))
      = l.filter (fun d => !(d.layer == some li)) := by
  intro k l
  induction l generalizing k with
  | nil => cases k <;> simp [dropLayerDots]
  | cons d rest ih =>
    cases k with
    | zero => simp [dropLayerDots]
    | succ k =>
      rw [dropLayerDots]
      split
      · rename_i hmatch
        rw [ih k, List.filter_cons]
        simp [hmatch]
      · rename_i hmatch
        rw [List.filter_cons, List.filter_cons]
        have : (d.layer == some li) = false := by
          simpa using hmatch
        simp [this, ih (k + 1)]

theorem dropLayerDots_length (li : ℕ) : ∀ k l,
    l.length - (dropLayerDots li k l).length = min k (layerCount li l) := by
  intro k l
  induction l generalizing k with
  | nil => cases k <;> simp [dropLayerDots, layerCount]
  | cons d rest ih =>
    cases k with
    | zero => simp [dropLayerDots]
    | succ k =>
      rw [dropLayerDots]
      split
      · rename_i hmatch
        have hlen := (dropLayerDots_sublist li k rest).length_le
        have hcount : layerCount li (d :: rest) = layerCount li rest + 1 := by
          simp [layerCount, List.filter_cons, hmatch]
        have := ih k
        rw [hcount]
        simp only [List.length_cons]
        omega
      · rename_i hmatch
        have hcount : layerCount li (d :: rest) = layerCount li rest := by
          have : (d.layer == some li) = false := by simpa using hmatch
          simp [layerCount, List.filter_cons, this]
        have hlen := (dropLayerDots_sublist li (k + 1) rest).length_le
        have := ih (k + 1)
        rw [hcount]
        simp only [List.length_cons]
        omega

/-- C10: `removeDotsFromLayer(i, k)` removes only dots of layer `i` — the
result is a sublist of the input whose other-layer dots are exactly those of
the input, in the same order — and it removes exactly
`min k (number of layer-i dots)` dots, hence never more. -/
theorem removeDotsFromLayer_frame (li k : ℕ) (dots : List PDot) :
    List.Sublist (removeDotsFromLayer li k dots) dots ∧
    (removeDotsFromLayer li k dots).filter (fun d => !(d.layer == some li))
      = dots.filter (fun d => !(d.layer == some li)) ∧
    dots.length - (removeDotsFromLayer li k dots).length = min k (layerCount li dots) := by
  unfold removeDotsFromLayer
  refine ⟨?_, ?_, ?_⟩
  · have h := dropLayerDots_sublist li k dots.reverse
    have h2 := List.reverse_sublist.mpr h
    rwa [List.reverse_reverse] at h2
  · rw [List.filter_reverse, dropLayerDots_filter, List.filter_reverse,
      List.reverse_reverse]
  · have h := dropLayerDots_length li k dots.reverse
    have hc : layerCount li dots.reverse = layerCount li dots := by
      simp [layerCount, List.filter_reverse]
    rw [hc, List.length_reverse] at h
    simpa using h

end Dancy

namespace Dancy

theorem placeDotsLoop_shape (rand : ℕ → ℚ) (layers : List LayerCfg)
    (ds w h : ℚ) (li : ℕ) (radius : ℚ) (nc : ℕ) :
    ∀ n acc ridx, ∃ L : List PDot,
      (placeDotsLoop rand layers ds w h li radius nc n acc ridx).1 = acc ++ L ∧
      L.length = n ∧ ∀ d ∈ L, d.layer = some li := by
  intro n
  induction n with
  | zero => intro acc ridx; exact ⟨[], by simp [placeDotsLoop], rfl, by simp⟩
  | succ n ih =>
    intro acc ridx
    rw [placeDotsLoop]
    obtain ⟨L, hEq, hLen, hMem⟩ :=
      ih (acc ++ [pushedDot rand layers ds w h radius li nc acc ridx])
        (pickColorIndex rand nc (placeDot rand layers ds w h radius acc ridx).2.2.2).2
    refine ⟨pushedDot rand layers ds w h radius li nc acc ridx :: L, ?_,
      by simp [hLen], ?_⟩
    · rw [hEq, List.append_assoc]
      rfl
    · intro d hd
      rcases List.mem_cons.mp hd with h | h
      · subst h; rfl
      · exact hMem d h

theorem dropLayerDots_append (li : ℕ) (L rest : List PDot)
    (hmem : ∀ d ∈ L, d.layer = some li) :
    dropLayerDots li L.length (L ++ rest) = rest := by
  induction L with
  | nil => cases rest <;> simp [dropLayerDots]
  | cons d L ih =>
    have hd : d.layer = some li := hmem d (List.mem_cons_self d L)
    simp only [List.length_cons, List.cons_append]
    rw [dropLayerDots, if_pos hd]
    exact ih fun e he => hmem e (List.mem_cons_of_mem d he)

/-- C6 (amended): for a layer index registered in `STATE.layers`,
`addDotsToLayer(i, k)` followed by `removeDotsFromLayer(i, k)` restores the
dot list exactly: the removal deletes precisely the `k` most recently added
dots (all of layer `i`), so the layer returns to its original count and no
pre-existing dot is touched. -/
theorem addThenRemove_restores (rand : ℕ → ℚ) (layers : List LayerCfg)
    (ds w h : ℚ) (li k : ℕ) (dots : List PDot) (ridx : ℕ)
    (hli : li < layers.length) :
    removeDotsFromLayer li k (addDotsToLayer rand layers ds w h li k dots ridx).1
      = dots := by
  obtain ⟨cfg, hcfg⟩ : ∃ cfg, layers.get? li = some cfg :=
    ⟨_, List.get?_eq_get hli⟩
  obtain ⟨L, hEq, hLen, hMem⟩ := placeDotsLoop_shape rand layers ds w h li
    (getPlacementRadius layers ds (some li)) cfg.numColors k dots ridx
  have hAdd : (addDotsToLayer rand layers ds w h li k dots ridx).1 = dots ++ L := by
    unfold addDotsToLayer
    rw [hcfg]
    exact hEq
  rw [hAdd]
  unfold removeDotsFromLayer
  rw [List.reverse_append]
  have hMemRev : ∀ d ∈ L.reverse, d.layer = some li := by
    intro d hd; exact hMem d (List.mem_reverse.mp hd)
  have hLenRev : L.reverse.length = k := by simpa using hLen
  rw [← hLenRev, dropLayerDots_append li L.reverse dots.reverse hMemRev,
    List.reverse_reverse]

/-- The pre-existing dot of the C6 counterexample: a dot carrying layer
index 0 while the layer registry is empty. -/
def orphanDot : PDot :=
  { x := 0, y := 0, x0 := 0, y0 := 0, layer := some 0, colorIndex := 0, placed := true }

/-- C6 (counterexample): the round trip is not count-preserving for an
unregistered layer index.  With `STATE.layers = []`, `addDotsToLayer(0, 1)`
is a guarded no-op, but `removeDotsFromLayer(0, 1)` still deletes a
pre-existing dot carrying layer index 0: the layer-0 count drops from 1 to 0. -/
theorem addThenRemove_drops_unregistered :
    layerCount 0 [orphanDot] = 1 ∧
    layerCount 0 (removeDotsFromLayer 0 1
      (addDotsToLayer (fun _ => 0) [] 1 100 100 0 1 [orphanDot] 0).1) = 0 := by
  constructor <;> rfl

/-- Layer configuration used by the C6 witness. -/
def wAddLayer : LayerCfg := { countOpt := some 1, radius := 1, softness := 0, numColors := 0 }

/-- Witness for the amended C6 theorem at a concrete registered layer. -/
theorem addThenRemove_restores_witness :
    removeDotsFromLayer 0 2
      (addDotsToLayer (fun _ => 1/2) [wAddLayer] 1 100 100 0 2 [] 0).1 = [] :=
  addThenRemove_restores (fun _ => 1/2) [wAddLayer] 1 100 100 0 2 [] 0
    (by decide)

end Dancy

namespace Dancy

theorem placeLoop_accepted (rand : ℕ → ℚ) (layers : List LayerCfg)
    (ds w h radius : ℚ) (existing : List PDot) :
    ∀ fuel ridx,
      (placeLoop rand layers ds w h radius existing fuel ridx).2.2.1 = true →
      checkOverlap layers ds
        (placeLoop rand layers ds w h radius existing fuel ridx).1
        (placeLoop rand layers ds w h radius existing fuel ridx).2.1
        radius existing = false := by
  intro fuel
  induction fuel with
  | zero => intro ridx hret; simp [placeLoop] at hret
  | succ fuel ih =>
    intro ridx hret
    simp only [placeLoop] at hret ⊢
    by_cases hov : checkOverlap layers ds (samplePos rand ridx w h).1
        (samplePos rand ridx w h).2 radius existing = true
    · rw [if_pos hov] at hret ⊢
      by_cases hf : fuel = 0
      · rw [if_pos hf] at hret ⊢
        simp at hret
      · rw [if_neg hf] at hret ⊢
        exact ih _ hret
    · rw [if_neg hov] at hret ⊢
      simpa using hov

/-- The separation invariant of one rejection-sampling pass: any dot that the
sampler accepted within the attempt cap lies at distance at least the sum of
the placement collision radii from every dot placed before it. -/
def Separated (layers : List LayerCfg) (dotSpacing : ℚ) (l : List PDot) : Prop :=
  ∀ i j di dj, i < j → l.get? i = some di → l.get? j = some dj →
    dj.placed = true →
    ¬ ((dj.x - di.x) * (dj.x - di.x) + (dj.y - di.y) * (dj.y - di.y)
        < (getPlacementRadius layers dotSpacing dj.layer
            + getPlacementRadius layers dotSpacing di.layer)
          * (getPlacementRadius layers dotSpacing dj.layer
            + getPlacementRadius layers dotSpacing di.layer))

theorem Separated.push (layers : List LayerCfg) (ds : ℚ) {acc : List PDot}
    (hacc : Separated layers ds acc) {nd : PDot}
    (hnd : nd.placed = true →
      checkOverlap layers ds nd.x nd.y
        (getPlacementRadius layers ds nd.layer) acc = false) :
    Separated layers ds (acc ++ [nd]) := by
  intro i j di dj hij hi hj hp
  have hjlt : j < acc.length + 1 := by
    have := List.get?_eq_some.mp hj
    simpa using this.1
  by_cases hjacc : j < acc.length
  · have hi' : acc.get? i = some di := by
      rw [List.get?_append (by omega)] at hi; exact hi
    have hj' : acc.get? j = some dj := by
      rw [List.get?_append hjacc] at hj; exact hj
    exact hacc i j di dj hij hi' hj' hp
  · have hjeq : j = acc.length := by omega
    have hdj : dj = nd := by
      rw [hjeq, List.get?_append_right (by omega)] at hj
      simp at hj
      exact hj.symm
    have hi' : acc.get? i = some di := by
      rw [List.get?_append (by omega)] at hi; exact hi
    have hmem : di ∈ acc := List.get?_mem hi'
    subst hdj
    have hov := hnd hp
    rw [checkOverlap, List.any_eq_false] at hov
    have := hov di hmem
    simpa using this

theorem placeDotsLoop_separated (rand : ℕ → ℚ) (layers : List LayerCfg)
    (ds w h : ℚ) (li nc : ℕ) :
    ∀ n acc ridx, Separated layers ds acc →
      Separated layers ds
        (placeDotsLoop rand layers ds w h li
          (getPlacementRadius layers ds (some li)) nc n acc ridx).1 := by
  intro n
  induction n with
  | zero => intro acc ridx hsep; simpa [placeDotsLoop] using hsep
  | succ n ih =>
    intro acc ridx hsep
    rw [placeDotsLoop]
    apply ih
    apply Separated.push layers ds hsep
    intro hp
    have hacc := placeLoop_accepted rand layers ds w h
      (getPlacementRadius layers ds (some li)) acc 100 ridx
    simp only [pushedDot, placeDot] at hp ⊢
    exact hacc hp

theorem buildLayersAux_separated (rand : ℕ → ℚ) (layers : List LayerCfg)
    (ds w h : ℚ) :
    ∀ rem li acc ridx, Separated layers ds acc →
      Separated layers ds (buildLayersAux rand layers ds w h rem li acc ridx).1 := by
  intro rem
  induction rem with
  | nil => intro li acc ridx hsep; simpa [buildLayersAux] using hsep
  | cons cfg rem ih =>
    intro li acc ridx hsep
    rw [buildLayersAux]
    exact ih _ _ _ (placeDotsLoop_separated rand layers ds w h li cfg.numColors _ acc ridx hsep)

theorem layerCount_append (j : ℕ) (l₁ l₂ : List PDot) :
    layerCount j (l₁ ++ l₂) = layerCount j l₁ + layerCount j l₂ := by
  simp [layerCount, List.filter_append]

theorem layerCount_cons_of_layer (li : ℕ) (d : PDot) (L : List PDot)
    (hd : d.layer = some li) :
    layerCount li (d :: L) = layerCount li L + 1 := by
  simp [layerCount, List.filter_cons, hd]

theorem layerCount_cons_of_ne (j : ℕ) (d : PDot) (L : List PDot)
    (hd : ¬ d.layer = some j) :
    layerCount j (d :: L) = layerCount j L := by
  simp [layerCount, List.filter_cons, hd]

theorem layerCount_const (j li : ℕ) (L : List PDot)
    (hmem : ∀ d ∈ L, d.layer = some li) :
    layerCount j L = if j = li then L.length else 0 := by
  induction L with
  | nil => simp [layerCount]
  | cons d L ih =>
    have hd := hmem d (List.mem_cons_self d L)
    have hrest := ih fun e he => hmem e (List.mem_cons_of_mem d he)
    by_cases hjl : j = li
    · subst hjl
      rw [layerCount_cons_of_layer j d L hd, hrest, if_pos rfl, if_pos rfl]
      simp
    · have hne : ¬ d.layer = some j := by
        rw [hd]
        intro hcontra
        exact hjl (Option.some.inj hcontra).symm
      rw [if_neg hjl] at hrest
      rw [layerCount_cons_of_ne j d L hne, hrest, if_neg hjl]

theorem placeDotsLoop_count (rand : ℕ → ℚ) (layers : List LayerCfg)
    (ds w h : ℚ) (li : ℕ) (radius : ℚ) (nc : ℕ)
    (n : ℕ) (acc : List PDot) (ridx j : ℕ) :
    layerCount j (placeDotsLoop rand layers ds w h li radius nc n acc ridx).1
      = layerCount j acc + if j = li then n else 0 := by
  obtain ⟨L, hEq, hLen, hMem⟩ := placeDotsLoop_shape rand layers ds w h li radius nc n acc ridx
  rw [hEq, layerCount_append, layerCount_const j li L hMem, hLen]

theorem buildLayersAux_count_lt (rand : ℕ → ℚ) (layers : List LayerCfg)
    (ds w h : ℚ) :
    ∀ (rem : List LayerCfg) li acc ridx j, j < li →
      layerCount j (buildLayersAux rand layers ds w h rem li acc ridx).1
        = layerCount j acc := by
  intro rem
  induction rem with
  | nil => intro li acc ridx j hj; simp [buildLayersAux]
  | cons cfg rem ih =>
    intro li acc ridx j hj
    rw [buildLayersAux]
    rw [ih (li + 1) _ _ j (by omega)]
    rw [placeDotsLoop_count]
    simp [Nat.ne_of_lt hj]

theorem buildLayersAux_count_get (rand : ℕ → ℚ) (layers : List LayerCfg)
    (ds w h : ℚ) :
    ∀ (rem : List LayerCfg) li acc ridx m,
      layerCount (li + m) (buildLayersAux rand layers ds w h rem li acc ridx).1
        = layerCount (li + m) acc
          + ((rem.get? m).map (fun c => c.countOpt.getD 50)).getD 0 := by
  intro rem
  induction rem with
  | nil => intro li acc ridx m; simp [buildLayersAux]
  | cons cfg rem ih =>
    intro li acc ridx m
    rw [buildLayersAux]
    cases m with
    | zero =>
      rw [show li + 0 = li by omega]
      rw [buildLayersAux_count_lt rand layers ds w h rem (li + 1) _ _ li (by omega)]
      rw [placeDotsLoop_count]
      simp
    | succ m =>
      rw [show li + (m + 1) = (li + 1) + m by omega]
      rw [ih (li + 1) _ _ m]
      rw [placeDotsLoop_count]
      simp [show (li + 1) + m ≠ li by omega]

/-- C5: a layered build places exactly the requested count of dots for every
layer (the source defaults a missing `count` to 50), and any two dots of the
same pass of which the later was accepted within the 100-attempt cap are no
closer than the sum of their placement collision radii — a violating pair can
only arise when the cap was exhausted for one of them (its `placed` flag is
then false). -/
theorem buildLayeredDots_spec (rand : ℕ → ℚ) (layers : List LayerCfg) (ds w h : ℚ) :
    (∀ li (hli : li < layers.length),
        layerCount li (buildLayeredDots rand layers ds w h)
          = (layers.get ⟨li, hli⟩).countOpt.getD 50) ∧
    Separated layers ds (buildLayeredDots rand layers ds w h) := by
  constructor
  · intro li hli
    have hcount := buildLayersAux_count_get rand layers ds w h layers 0 [] 0 li
    rw [List.get?_eq_get hli] at hcount
    simpa [buildLayeredDots, layerCount] using hcount
  · refine buildLayersAux_separated rand layers ds w h layers 0 [] 0 ?_
    intro i j di dj hij hi hj hp
    simp at hi
end Dancy

namespace Dancy

theorem placeLoop_accept_step (rand : ℕ → ℚ) (layers : List LayerCfg)
    (ds w h radius : ℚ) (existing : List PDot) (fuel ridx : ℕ)
    (hov : checkOverlap layers ds (samplePos rand ridx w h).1
      (samplePos rand ridx w h).2 radius existing = false) :
    placeLoop rand layers ds w h radius existing (fuel + 1) ridx
      = ((samplePos rand ridx w h).1, (samplePos rand ridx w h).2, true, ridx + 2) := by
  simp only [placeLoop]
  rw [if_neg (by simp [hov])]

/-- Random stream used by the concrete placement evaluations. -/
def wRand : ℕ → ℚ := fun _ => 1/2

/-- One-layer configuration used by the C5 witness: two dots requested,
radius 0 (so rejection sampling always accepts), empty palette. -/
def wLayer : LayerCfg := { countOpt := some 2, radius := 0, softness := 0, numColors := 0 }

/-- The dot produced by each placement step of the C5 witness:
`(0.5 - 0.3) * 100 * 1.6 = 32` on both axes. -/
def wDot : PDot :=
  { x := 32, y := 32, x0 := 32, y0 := 32, layer := some 0, colorIndex := 0, placed := true }

theorem wSample (ridx : ℕ) : samplePos wRand ridx 100 100 = (32, 32) := by
  simp only [samplePos, wRand]
  norm_num

theorem wPlace0 : placeDot wRand [wLayer] 1 100 100 0 [] 0 = (32, 32, true, 2) := by
  show placeLoop wRand [wLayer] 1 100 100 0 [] 100 0 = (32, 32, true, 2)
  calc placeLoop wRand [wLayer] 1 100 100 0 [] 100 0
      = ((samplePos wRand 0 100 100).1, (samplePos wRand 0 100 100).2, true, 0 + 2) :=
        placeLoop_accept_step wRand [wLayer] 1 100 100 0 [] 99 0 rfl
    _ = (32, 32, true, 2) := by rw [wSample 0]

theorem wOverlap1 : checkOverlap [wLayer] 1 (samplePos wRand 2 100 100).1
    (samplePos wRand 2 100 100).2 0 [wDot] = false := by
  rw [wSample 2]
  simp [checkOverlap, getPlacementRadius, wLayer, wDot]

theorem wPlace1 : placeDot wRand [wLayer] 1 100 100 0 [wDot] 2 = (32, 32, true, 4) := by
  show placeLoop wRand [wLayer] 1 100 100 0 [wDot] 100 2 = (32, 32, true, 4)
  calc placeLoop wRand [wLayer] 1 100 100 0 [wDot] 100 2
      = ((samplePos wRand 2 100 100).1, (samplePos wRand 2 100 100).2, true, 2 + 2) :=
        placeLoop_accept_step wRand [wLayer] 1 100 100 0 [wDot] 99 2 wOverlap1
    _ = (32, 32, true, 4) := by rw [wSample 2]

theorem wPush0 : pushedDot wRand [wLayer] 1 100 100 0 0 0 [] 0 = wDot := by
  simp only [pushedDot]
  rw [wPlace0]
  simp [pickColorIndex, wDot]

theorem wPush1 : pushedDot wRand [wLayer] 1 100 100 0 0 0 [wDot] 2 = wDot := by
  simp only [pushedDot]
  rw [wPlace1]
  simp [pickColorIndex, wDot]

theorem wBuild_eval : buildLayeredDots wRand [wLayer] 1 100 100 = [wDot, wDot] := by
  have hpr : getPlacementRadius [wLayer] 1 (some 0) = 0 := by
    simp [getPlacementRadius, wLayer]
  simp only [buildLayeredDots, buildLayersAux]
  rw [hpr]
  show (placeDotsLoop wRand [wLayer] 1 100 100 0 0 0 2 [] 0).1 = [wDot, wDot]
  rw [placeDotsLoop]
  rw [wPush0, wPlace0]
  show (placeDotsLoop wRand [wLayer] 1 100 100 0 0 0 1 [wDot] 2).1 = [wDot, wDot]
  rw [placeDotsLoop]
  rw [wPush1, wPlace1]
  show (placeDotsLoop wRand [wLayer] 1 100 100 0 0 0 0 [wDot, wDot] 4).1 = [wDot, wDot]
  rfl

/-- Witness for C5 at a concrete one-layer configuration: the layer receives
its requested 2 dots, both accepted by the sampler, and the separation
conclusion holds for the pair (their placement radii are 0). -/
theorem buildLayeredDots_spec_witness :
    layerCount 0 (buildLayeredDots wRand [wLayer] 1 100 100) = 2 ∧
    ¬ ((wDot.x - wDot.x) * (wDot.x - wDot.x) + (wDot.y - wDot.y) * (wDot.y - wDot.y)
        < (getPlacementRadius [wLayer] 1 wDot.layer + getPlacementRadius [wLayer] 1 wDot.layer)
          * (getPlacementRadius [wLayer] 1 wDot.layer + getPlacementRadius [wLayer] 1 wDot.layer)) := by
  constructor
  · have hc := (buildLayeredDots_spec wRand [wLayer] 1 100 100).1 0 (by norm_num)
    simpa [wLayer] using hc
  · exact (buildLayeredDots_spec wRand [wLayer] 1 100 100).2 0 1 wDot wDot
      (by norm_num) (by rw [wBuild_eval]; rfl) (by rw [wBuild_eval]; rfl) rfl

end Dancy

namespace Dancy

theorem hash3_zero : hash3 0 0 0 = 1376312589 := rfl

/-- C1 (code bug): `noise3(0, 0, 0)` evaluates to `hash3(0,0,0) / 2^30
= 1376312589 / 1073741824 ≈ 1.2817`, outside the `[0, 1)` range promised by
the spec and by the function's own doc comment ("value in range [0, 1]"):
the hash is masked to 31 bits but normalized by `2^30`. -/
theorem noise3_exceeds_unit_range :
    noise3 0 0 0 = 1376312589 / 1073741824 ∧ 1 < noise3 0 0 0 := by
  have hmain : noise3 0 0 0 = 1376312589 / 1073741824 := by
    simp only [noise3]
    norm_num [fade, lerp, Int.floor_zero, corner, hash3_zero]
  refine ⟨hmain, ?_⟩
  rw [hmain]
  norm_num

end Dancy

namespace Dancy

/- ------------------------------------------------------------------ -/
/- Animation loop and physics (animation.js, export template)         -/
/- ------------------------------------------------------------------ -/

open scoped Classical

/-- A dot as mutated by the animation loop: current position, home position,
velocity, layer index (`none` for uniform-grid dots). -/
structure RDot where
  x : ℝ
  y : ℝ
  x0 : ℝ
  y0 : ℝ
  vx : ℝ
  vy : ℝ
  layer : Option ℕ

/-- Per-layer animation settings.  `CONFIG.layers[i]` (speedMultiplier) and
`STATE.layers[i]` (pixel radius, softness) are index-aligned views of the same
layer list; both are modelled by this one record. -/
structure LayerR where
  radius : ℝ
  softness : ℝ
  speedMultiplier : ℝ

/-- `CONFIG.mode`. -/
inductive Mode
  | grid
  | layered
deriving DecidableEq

/-- The configuration read by the animation loop. -/
structure AnimCfg where
  mode : Mode
  collisionsEnabled : Bool
  gridRadius : ℝ
  layers : List LayerR

/-- `getCollisionRadius(dot)` from animation.js: grid dots and dots of a
missing layer fall back to `CONFIG.grid.radius`; otherwise
`radius * Math.max(1, softness || 1) * 0.6`. -/
noncomputable def getCollisionRadius (cfg : AnimCfg) (d : RDot) : ℝ :=
  match d.layer with
  | none => cfg.gridRadius
  | some j =>
    match cfg.layers.get? j with
    | none => cfg.gridRadius
    | some l => l.radius * max 1 (if l.softness = 0 then 1 else l.softness) * 0.6

/-- The layer speed multiplier of the animate loop:
`CONFIG.layers[dot.layer]?.speedMultiplier || 1.0` when mode is layered and
the dot has a layer, else 1.0 (JS `||` turns a 0 multiplier into 1.0). -/
noncomputable def layerSpeed (cfg : AnimCfg) (layer : Option ℕ) : ℝ :=
  if cfg.mode = Mode.layered ∧ layer ≠ none then
    match layer.bind (fun j => cfg.layers.get? j) with
    | some l => if l.speedMultiplier = 0 then 1 else l.speedMultiplier
    | none => 1
  else 1

/-- One dot's update in the animate loop of animation.js: evaluate the field
at the current position with options `{x0, y0, time}`, scale by the layer
speed, store the velocity, and advance the position by `velocity * dt`
(`dt` is the delta-time factor normalized to the 60 fps baseline). -/
noncomputable def integrateDot (fieldFn : ℝ → ℝ → ℝ × ℝ × ℝ → ℝ × ℝ)
    (cfg : AnimCfg) (time dt : ℝ) (d : RDot) : RDot :=
  let field := fieldFn d.x d.y (d.x0, d.y0, time)
  let speed := layerSpeed cfg d.layer
  let vx := field.1 * speed
  let vy := field.2 * speed
  { d with vx := vx, vy := vy, x := d.x + vx * dt, y := d.y + vy * dt }

/-- `if (!dot.vx) { dot.vx = 0; dot.vy = 0; }` from handleCollisions:
JS falsiness on a number means `vx === 0` here, and the branch also zeroes
`vy`. -/
noncomputable def initVelocity (d : RDot) : RDot :=
  if d.vx = 0 then { d with vx := 0, vy := 0 } else d

/-- The body of the inner pair loop of `handleCollisions` (animation.js):
when the circles overlap (strictly, and at nonzero distance), push both dots
apart by half the penetration along the normal, apply the velocity
initialization, and exchange the velocity component along the normal. -/
noncomputable def resolvePair (cfg : AnimCfg) (a b : RDot) : RDot × RDot :=
  let radiusA := getCollisionRadius cfg a
  let radiusB := getCollisionRadius cfg b
  let dx := b.x - a.x
  let dy := b.y - a.y
  let distSq := dx * dx + dy * dy
  let minDist := radiusA + radiusB
  if distSq < minDist * minDist ∧ 0 < distSq then
    let dist := Real.sqrt distSq
    let nx := dx / dist
    let ny := dy / dist
    let overlap := minDist - dist
    let pushX := nx * overlap * 0.5
    let pushY := ny * overlap * 0.5
    let a1 := initVelocity { a with x := a.x - pushX, y := a.y - pushY }
    let b1 := initVelocity { b with x := b.x + pushX, y := b.y + pushY }
    let relVelDotN := (b1.vx - a1.vx) * nx + (b1.vy - a1.vy) * ny
    ({ a1 with vx := a1.vx + relVelDotN * nx, vy := a1.vy + relVelDotN * ny },
     { b1 with vx := b1.vx - relVelDotN * nx, vy := b1.vy - relVelDotN * ny })
  else (a, b)

/-- The index pairs `(i, j)` with `i < j`, in the order the nested loops of
`handleCollisions` visit them. -/
def pairIndices (n : ℕ) : List (ℕ × ℕ) :=
  (List.range n).bind fun i =>
    ((List.range n).filter fun j => decide (i < j)).map fun j => (i, j)

/-- One iteration of the pair loop on the mutable dot array: read the two
dots at their current state, resolve, write back. -/
noncomputable def pairStep (cfg : AnimCfg) (l : List RDot) (ij : ℕ × ℕ) : List RDot :=
  match l[ij.1]?, l[ij.2]? with
  | some a, some b =>
    let r := resolvePair cfg a b
    (l.set ij.1 r.1).set ij.2 r.2
  | _, _ => l

/-- `handleCollisions(dotsArray)` from animation.js: a no-op unless mode is
layered and collisions are enabled; otherwise every unordered pair is visited
once, mutating the array in place. -/
noncomputable def handleCollisions (cfg : AnimCfg) (l : List RDot) : List RDot :=
  if cfg.mode = Mode.layered ∧ cfg.collisionsEnabled then
    (pairIndices l.length).foldl (pairStep cfg) l
  else l

/-- One executed physics frame of `animate` (animation.js): integrate every
dot against the active field, then resolve collisions.  (Frame limiting and
the redraw are outside this model; the field function is the registry entry
for `CONFIG.currentField`.) -/
noncomputable def tick (fieldFn : ℝ → ℝ → ℝ × ℝ × ℝ → ℝ × ℝ)
    (cfg : AnimCfg) (time dt : ℝ) (dots : List RDot) : List RDot :=
  handleCollisions cfg (dots.map (integrateDot fieldFn cfg time dt))

end Dancy

namespace Dancy

/-- C4: for a pair that `handleCollisions` resolves as a collision, the
impulse exchange conserves total momentum: the velocity sums after resolution
equal the sums immediately before the impulse exchange (i.e. after the
source's velocity-initialization guard). -/
theorem resolvePair_momentum (cfg : AnimCfg) (a b : RDot)
    (hcol : (b.x - a.x) * (b.x - a.x) + (b.y - a.y) * (b.y - a.y)
          < (getCollisionRadius cfg a + getCollisionRadius cfg b)
            * (getCollisionRadius cfg a + getCollisionRadius cfg b) ∧
        0 < (b.x - a.x) * (b.x - a.x) + (b.y - a.y) * (b.y - a.y)) :
    (resolvePair cfg a b).1.vx + (resolvePair cfg a b).2.vx
        = (initVelocity a).vx + (initVelocity b).vx ∧
    (resolvePair cfg a b).1.vy + (resolvePair cfg a b).2.vy
        = (initVelocity a).vy + (initVelocity b).vy := by
  simp only [resolvePair]
  rw [if_pos hcol]
  simp only [initVelocity]
  constructor <;> split_ifs <;> ring

end Dancy

namespace Dancy

/-- Configuration for the C4 witness (layered, collisions on, grid radius 1,
no layers — both dots are grid dots with collision radius 1). -/
def colCfg : AnimCfg :=
  { mode := Mode.layered, collisionsEnabled := true, gridRadius := 1, layers := [] }

/-- First dot of the C4 witness pair. -/
def colDotA : RDot := { x := 0, y := 0, x0 := 0, y0 := 0, vx := 2, vy := 3, layer := none }

/-- Second dot of the C4 witness pair, overlapping the first. -/
def colDotB : RDot := { x := 1, y := 0, x0 := 1, y0 := 0, vx := -1, vy := 5, layer := none }

/-- Witness for C4: a concrete overlapping pair. -/
theorem resolvePair_momentum_witness :
    (resolvePair colCfg colDotA colDotB).1.vx + (resolvePair colCfg colDotA colDotB).2.vx
        = (initVelocity colDotA).vx + (initVelocity colDotB).vx ∧
    (resolvePair colCfg colDotA colDotB).1.vy + (resolvePair colCfg colDotA colDotB).2.vy
        = (initVelocity colDotA).vy + (initVelocity colDotB).vy :=
  resolvePair_momentum colCfg colDotA colDotB
    (by norm_num [colDotA, colDotB, colCfg, getCollisionRadius])

end Dancy

namespace Dancy

/-- The immutable part of a dot: home position and layer index. -/
def dotTag (d : RDot) : ℝ × ℝ × Option ℕ := (d.x0, d.y0, d.layer)

theorem initVelocity_tag (d : RDot) : dotTag (initVelocity d) = dotTag d := by
  simp only [initVelocity]
  split_ifs <;> rfl

theorem resolvePair_fst_tag (cfg : AnimCfg) (a b : RDot) :
    dotTag (resolvePair cfg a b).1 = dotTag a := by
  simp only [resolvePair]
  split_ifs with hcol
  · simp only [dotTag, initVelocity]
    split_ifs <;> simp
  · rfl

theorem resolvePair_snd_tag (cfg : AnimCfg) (a b : RDot) :
    dotTag (resolvePair cfg a b).2 = dotTag b := by
  simp only [resolvePair]
  split_ifs with hcol
  · simp only [dotTag, initVelocity]
    split_ifs <;> simp
  · rfl

theorem pairStep_tag (cfg : AnimCfg) (l : List RDot) (ij : ℕ × ℕ) (i : ℕ) :
    ((pairStep cfg l ij)[i]?).map dotTag = (l[i]?).map dotTag := by
  unfold pairStep
  cases hA : l[ij.1]? with
  | none => cases hB : l[ij.2]? <;> rfl
  | some a =>
    cases hB : l[ij.2]? with
    | none => rfl
    | some b =>
      have hlenB : ij.2 < l.length := by
        by_contra hc
        rw [List.getElem?_eq_none (by omega)] at hB
        exact Option.noConfusion hB
      have hlenA : ij.1 < l.length := by
        by_contra hc
        rw [List.getElem?_eq_none (by omega)] at hA
        exact Option.noConfusion hA
      simp only []
      by_cases hij2 : ij.2 = i
      · subst hij2
        rw [List.getElem?_set_self (by simpa using hlenB)]
        rw [hB]
        simp [resolvePair_snd_tag]
      · rw [List.getElem?_set_ne hij2]
        by_cases hij1 : ij.1 = i
        · subst hij1
          rw [List.getElem?_set_self hlenA, hA]
          simp [resolvePair_fst_tag]
        · rw [List.getElem?_set_ne hij1]

end Dancy

namespace Dancy

theorem foldl_pairStep_tag (cfg : AnimCfg) (pairs : List (ℕ × ℕ)) :
    ∀ (l : List RDot) (i : ℕ),
      ((pairs.foldl (pairStep cfg) l)[i]?).map dotTag = (l[i]?).map dotTag := by
  induction pairs with
  | nil => intro l i; rfl
  | cons p ps ih =>
    intro l i
    rw [List.foldl_cons, ih, pairStep_tag]

theorem handleCollisions_tag (cfg : AnimCfg) (l : List RDot) (i : ℕ) :
    ((handleCollisions cfg l)[i]?).map dotTag = (l[i]?).map dotTag := by
  unfold handleCollisions
  split
  · rw [foldl_pairStep_tag]
  · rfl

/-- C9: one simulation tick — field integration followed by collision
resolution — never changes a dot's home position `(x0, y0)` or its layer
index; only current position and velocity are mutated. -/
theorem tick_preserves_home (fieldFn : ℝ → ℝ → ℝ × ℝ × ℝ → ℝ × ℝ)
    (cfg : AnimCfg) (time dt : ℝ) (dots : List RDot) (i : ℕ) :
    (((tick fieldFn cfg time dt dots)[i]?).map dotTag) = ((dots[i]?).map dotTag) := by
  unfold tick
  rw [handleCollisions_tag]
  rw [List.getElem?_map]
  cases dots[i]? with
  | none => rfl
  | some d => simp [integrateDot, dotTag]

end Dancy

namespace Dancy

/-- The fault raised inside the animate callback when
`FIELDS[CONFIG.currentField]` is `undefined` and gets invoked (a JS
TypeError: "fieldFunction is not a function"). -/
inductive TickFault
  | fieldNotAFunction
deriving DecidableEq

/-- The keys registered in the `FIELDS` registry (fields.js). -/
def fieldKeys : List String :=
  ["randomWalk", "shiver", "wave", "curlNoise", "multiWave",
   "vortexLattice", "waveNoise", "standingWave", "cellular"]

/-- An executed frame of `animate` including the field lookup:
`FIELDS[CONFIG.currentField]` yields `none` for an unregistered key; the
function is first invoked on the first dot of the `forEach`, so with an empty
dot list the missing function is never called (the frame completes as a
no-op), while with any dot present the invocation throws, modelled as
`Except.error` (no dot is updated, and the fault propagates out of the
render callback). -/
noncomputable def tickDispatch (fieldFn : Option (ℝ → ℝ → ℝ × ℝ × ℝ → ℝ × ℝ))
    (cfg : AnimCfg) (time dt : ℝ) (dots : List RDot) :
    Except TickFault (List RDot) :=
  match fieldFn, dots with
  | some f, l => Except.ok (tick f cfg time dt l)
  | none, [] => Except.ok []
  | none, _ :: _ => Except.error TickFault.fieldNotAFunction

/-- Configuration and dot for the C2 counterexample. -/
def missCfg : AnimCfg :=
  { mode := Mode.layered, collisionsEnabled := false, gridRadius := 1, layers := [] }

/-- The dot present when the unregistered-field tick runs. -/
def missDot : RDot := { x := 5, y := 5, x0 := 5, y0 := 5, vx := 1, vy := 1, layer := none }

/-- C2 (counterexample): "spiral" is not a registered field key, and a tick
executed with it and a nonempty dot list faults (TypeError on invoking
`undefined`) instead of resolving to the claimed neutral zero-velocity
default. -/
theorem missing_field_tick_faults :
    "spiral" ∉ fieldKeys ∧
    tickDispatch none missCfg 0 1 [missDot] = Except.error TickFault.fieldNotAFunction ∧
    tickDispatch none missCfg 0 1 [missDot]
      ≠ Except.ok [{ missDot with vx := 0, vy := 0 }] := by
  refine ⟨by decide, rfl, ?_⟩
  intro hcontra
  exact Except.noConfusion hcontra

/-- C2 (amended): with an unregistered field key the frame is a harmless
no-op only when the dot list is empty; with any dot present the tick faults
with a TypeError instead of defaulting to zero velocity. -/
theorem missing_field_tick_behaviour (cfg : AnimCfg) (time dt : ℝ) :
    tickDispatch none cfg time dt [] = Except.ok [] ∧
    ∀ (d : RDot) (ds : List RDot),
      tickDispatch none cfg time dt (d :: ds) = Except.error TickFault.fieldNotAFunction :=
  ⟨rfl, fun _ _ => rfl⟩

end Dancy

namespace Dancy

/- ------------------------------------------------------------------ -/
/- Random-walk field (fields.js)                                      -/
/- ------------------------------------------------------------------ -/

/-- Truncation toward zero, as applied by the JS `%` operator to the
quotient. -/
noncomputable def jsTrunc (x : ℝ) : ℤ := if 0 ≤ x then ⌊x⌋ else ⌈x⌉

/-- The JS remainder `a % b`: `a - b * trunc(a / b)` (sign follows the
dividend; every use below has `b > 0`). -/
noncomputable def jsMod (a b : ℝ) : ℝ := a - b * (jsTrunc (a / b) : ℝ)

/-- `seededRandom(seed)` from fields.js:
`frac(sin(seed * 12.9898 + 78.233) * 43758.5453)` with `frac` via
`Math.floor`. -/
noncomputable def seededRandom (seed : ℝ) : ℝ :=
  let x := Real.sin (seed * 12.9898 + 78.233) * 43758.5453
  x - (⌊x⌋ : ℝ)

/-- The eased heading computed by `randomWalkField` for a dot identifier and
a time: bucket length `period = 1 / turnSpeed`, two bucket-seeded headings,
the difference wrapped into `(-π, π]` by two sequential corrections, and a
smoothstep blend by the fractional position inside the bucket. -/
noncomputable def randomWalkAngle (turnSpeed : ℝ) (dotId : ℝ) (time : ℝ) : ℝ :=
  let period := 1 / turnSpeed
  let timeStep : ℤ := ⌊time / period⌋
  let timeFrac := jsMod time period / period
  let angle1 := seededRandom (dotId + (timeStep : ℝ) * 100) * Real.pi * 2
  let angle2 := seededRandom (dotId + ((timeStep : ℝ) + 1) * 100) * Real.pi * 2
  let d0 := angle2 - angle1
  let d1 := if d0 > Real.pi then d0 - Real.pi * 2 else d0
  let d2 := if d1 < -Real.pi then d1 + Real.pi * 2 else d1
  let ease := timeFrac * timeFrac * (3 - 2 * timeFrac)
  angle1 + d2 * ease

/-- The target heading of time bucket `step`: the `angle2` drawn in that
bucket, `seededRandom(dotId + (step + 1) * 100) * 2π`. -/
noncomputable def bucketTarget (dotId : ℝ) (step : ℕ) : ℝ :=
  seededRandom (dotId + ((step : ℝ) + 1) * 100) * Real.pi * 2

set_option linter.unusedVariables false in
/-- `randomWalkField` (fields.js): unit heading at the eased angle, scaled by
`speed`; the dot identifier is derived from the home position (the current
position arguments are unused by this field). -/
noncomputable def randomWalkField (speed turnSpeed : ℝ) (x y : ℝ)
    (opts : ℝ × ℝ × ℝ) : ℝ × ℝ :=
  let dotId := opts.1 * 1.3 + opts.2.1 * 2.7
  let angle := randomWalkAngle turnSpeed dotId opts.2.2
  (Real.cos angle * speed, Real.sin angle * speed)

/-- C7: at the instant the boundary between time buckets `n` and `n + 1` is
crossed (time `(n + 1) * period`), the eased heading equals the previous
bucket's target heading — the interpolation lands exactly on the heading the
next bucket starts from, so there is no snap. -/
theorem randomWalkAngle_no_snap (turnSpeed dotId : ℝ) (n : ℕ)
    (hts : 0 < turnSpeed) :
    randomWalkAngle turnSpeed dotId ((n + 1) * (1 / turnSpeed))
      = bucketTarget dotId n := by
  have hper : (1 : ℝ) / turnSpeed ≠ 0 := by positivity
  have hquot : ((n : ℝ) + 1) * (1 / turnSpeed) / (1 / turnSpeed) = ((n : ℝ) + 1) := by
    field_simp
  have hfloor : ⌊((n : ℝ) + 1) * (1 / turnSpeed) / (1 / turnSpeed)⌋ = (n : ℤ) + 1 := by
    rw [hquot]
    exact_mod_cast Int.floor_natCast (n + 1)
  have htrunc : jsTrunc (((n : ℝ) + 1) * (1 / turnSpeed) / (1 / turnSpeed)) = (n : ℤ) + 1 := by
    rw [jsTrunc, if_pos (by rw [hquot]; positivity)]
    exact hfloor
  have hmod : jsMod (((n : ℝ) + 1) * (1 / turnSpeed)) (1 / turnSpeed) = 0 := by
    rw [jsMod, htrunc]
    push_cast
    ring
  simp only [randomWalkAngle, bucketTarget]
  rw [hfloor, hmod]
  push_cast
  ring

/-- Witness for C7 at `turnSpeed = 1`, `dotId = 0`, first bucket boundary. -/
theorem randomWalkAngle_no_snap_witness :
    randomWalkAngle 1 0 (((0 : ℕ) + 1) * (1 / 1)) = bucketTarget 0 0 :=
  randomWalkAngle_no_snap 1 0 0 (by norm_num)

end Dancy

namespace Dancy

/- ------------------------------------------------------------------ -/
/- Vortex lattice (state.js, fields.js)                               -/
/- ------------------------------------------------------------------ -/

/-- `Math.round`: floor of `x + 1/2` (round half toward `+∞`). -/
noncomputable def jsRound (x : ℝ) : ℝ := (⌊x + 1/2⌋ : ℝ)

/-- Number of iterations of `for (let v = spacing / 2; v < limit; v += spacing)`
for `spacing > 0`: the count of naturals `i` with `spacing/2 + i*spacing <
limit`. -/
noncomputable def vortexSteps (spacing limit : ℝ) : ℕ :=
  ⌈(limit - spacing / 2) / spacing⌉₊

/-- The vortex-center computation of `computeState` (state.js): a regular
grid of rounded points spaced by `spacing`, guarded by `if (spacing > 0)`;
a non-positive spacing yields the empty list. -/
noncomputable def vortexCenters (spacing w h : ℝ) : List (ℝ × ℝ) :=
  if 0 < spacing then
    (List.range (vortexSteps spacing w)).bind fun i =>
      (List.range (vortexSteps spacing h)).map fun j =>
        (jsRound (spacing / 2 + (i : ℝ) * spacing),
         jsRound (spacing / 2 + (j : ℝ) * spacing))
  else []

/-- `vortexLatticeField(x, y)` from fields.js: sum over `STATE.vortexCenters`
of a rotational contribution with Gaussian falloff, skipping any center that
coincides with the query point (`d2 === 0`). -/
noncomputable def vortexLatticeField (centers : List (ℝ × ℝ)) (R S : ℝ)
    (x y : ℝ) : ℝ × ℝ :=
  centers.foldl
    (fun acc c =>
      let rx := x - c.1
      let ry := y - c.2
      let d2 := rx * rx + ry * ry
      if d2 = 0 then acc
      else
        let d := Real.sqrt d2
        let fall := Real.exp (-(d * d) / (R * R))
        let s := S * fall
        (acc.1 + s * (-ry / d), acc.2 + s * (rx / d)))
    (0, 0)

/-- C8: with a configured vortex-lattice spacing `≤ 0`, recomputing the scene
state produces an empty vortex-center list, and the vortex-lattice field then
evaluates to `(0, 0)` at every position — both computations are total (no
fault). -/
theorem vortex_spacing_nonpos (spacing w h R S x y : ℝ) (hs : spacing ≤ 0) :
    vortexCenters spacing w h = [] ∧
    vortexLatticeField (vortexCenters spacing w h) R S x y = (0, 0) := by
  have hempty : vortexCenters spacing w h = [] := by
    rw [vortexCenters, if_neg (not_lt.mpr hs)]
  exact ⟨hempty, by rw [hempty]; rfl⟩

/-- Witness for C8 at spacing `-5` on a 100×100 canvas with the default
vortex radius and strength. -/
theorem vortex_spacing_nonpos_witness :
    vortexCenters (-5) 100 100 = [] ∧
    vortexLatticeField (vortexCenters (-5) 100 100) 750 0.6 3 4 = (0, 0) :=
  vortex_spacing_nonpos (-5) 100 100 750 0.6 3 4 (by norm_num)

end Dancy

namespace Dancy

/- ------------------------------------------------------------------ -/
/- Boundary handling (export template animate loop)                   -/
/- ------------------------------------------------------------------ -/

theorem jsMod_bounds {b : ℝ} (hb : 0 < b) (a : ℝ) :
    -b < jsMod a b ∧ jsMod a b < b := by
  rw [jsMod, jsTrunc]
  split_ifs with hq
  · have hfr0 := Int.fract_nonneg (a / b)
    have hfr1 := Int.fract_lt_one (a / b)
    have hba : b * (a / b) = a := by field_simp
    have hf : a - b * (⌊a / b⌋ : ℝ) = b * Int.fract (a / b) := by
      rw [Int.fract, mul_sub, hba]
    constructor
    · have := mul_nonneg hb.le hfr0
      rw [hf]
      linarith
    · have := (mul_lt_mul_left hb).mpr hfr1
      rw [hf]
      linarith [this, mul_one b]
  · have hle := Int.le_ceil (a / b)
    have hlt := Int.ceil_lt_add_one (a / b)
    have hba : b * (a / b) = a := by field_simp
    have h2 : b * ((⌈a / b⌉ : ℝ)) < b * (a / b + 1) := (mul_lt_mul_left hb).mpr hlt
    have h3 : b * (a / b) ≤ b * ((⌈a / b⌉ : ℝ)) := (mul_le_mul_left hb).mpr hle
    constructor
    · nlinarith
    · nlinarith

theorem jsMod_nonneg_bounds {b : ℝ} (hb : 0 < b) {a : ℝ} (ha : 0 ≤ a) :
    0 ≤ jsMod a b ∧ jsMod a b < b := by
  have hq : 0 ≤ a / b := div_nonneg ha hb.le
  rw [jsMod, jsTrunc, if_pos hq]
  have hfr0 := Int.fract_nonneg (a / b)
  have hfr1 := Int.fract_lt_one (a / b)
  have hba : b * (a / b) = a := by field_simp
  have hf : a - b * (⌊a / b⌋ : ℝ) = b * Int.fract (a / b) := by
    rw [Int.fract, mul_sub, hba]
  constructor
  · have := mul_nonneg hb.le hfr0
    rw [hf]
    linarith
  · have := (mul_lt_mul_left hb).mpr hfr1
    rw [hf]
    linarith [mul_one b]

/-- The double-remainder wrap `((v % w) + w) % w` of the export template
lands in `[0, w)` for positive `w`. -/
theorem wrap_mem {w : ℝ} (hw : 0 < w) (x : ℝ) :
    0 ≤ jsMod (jsMod x w + w) w ∧ jsMod (jsMod x w + w) w < w := by
  have h1 := jsMod_bounds hw x
  exact jsMod_nonneg_bounds hw (by linarith [h1.1])

/-- The bounce radius of the export template:
`STATE.layers[dot.layer] ? STATE.layers[dot.layer].radius : 10`. -/
noncomputable def boundaryRadius (layers : List LayerR) (layer : Option ℕ) : ℝ :=
  match layer.bind (fun j => layers.get? j) with
  | some l => l.radius
  | none => 10

/-- The x-axis half of the export template's soft containment:
`if (dot.x < radius) { dot.x = radius; dot.vx = Math.abs(dot.vx) * 0.5; }
else if (dot.x > w - radius) { dot.x = w - radius; dot.vx = -Math.abs(dot.vx) * 0.5; }`. -/
noncomputable def clampX (radius w : ℝ) (d : RDot) : RDot :=
  if d.x < radius then { d with x := radius, vx := |d.vx| * 0.5 }
  else if d.x > w - radius then { d with x := w - radius, vx := -|d.vx| * 0.5 }
  else d

/-- The y-axis half of the export template's soft containment. -/
noncomputable def clampY (radius h : ℝ) (d : RDot) : RDot :=
  if d.y < radius then { d with y := radius, vy := |d.vy| * 0.5 }
  else if d.y > h - radius then { d with y := h - radius, vy := -|d.vy| * 0.5 }
  else d

/-- The per-dot boundary handling of the exported animation loop (applied
right after integrating the dot, when the canvas has positive dimensions):
layer-2 dots and grid dots (`layer === null`) wrap with a double remainder;
every other layer is clamped to `radius` inside each edge with the velocity
component replaced by the inward-pointing half of its magnitude. -/
noncomputable def applyBoundary (layers : List LayerR) (w h : ℝ) (d : RDot) : RDot :=
  if 0 < w ∧ 0 < h then
    if d.layer = some 2 ∨ d.layer = none then
      { d with x := jsMod (jsMod d.x w + w) w, y := jsMod (jsMod d.y h + h) h }
    else
      clampY (boundaryRadius layers d.layer) h
        (clampX (boundaryRadius layers d.layer) w d)
  else d

theorem clampX_y (r w : ℝ) (d : RDot) : (clampX r w d).y = d.y := by
  rw [clampX]; split_ifs <;> rfl

theorem clampX_vy (r w : ℝ) (d : RDot) : (clampX r w d).vy = d.vy := by
  rw [clampX]; split_ifs <;> rfl

theorem clampY_x (r h : ℝ) (d : RDot) : (clampY r h d).x = d.x := by
  rw [clampY]; split_ifs <;> rfl

theorem clampY_vx (r h : ℝ) (d : RDot) : (clampY r h d).vx = d.vx := by
  rw [clampY]; split_ifs <;> rfl

theorem clampX_spec (r w : ℝ) (d : RDot) (hwr : r ≤ w - r) :
    (r ≤ (clampX r w d).x ∧ (clampX r w d).x ≤ w - r) ∧
    (d.x < r → (clampX r w d).x = r ∧ (clampX r w d).vx = |d.vx| * 0.5) ∧
    (d.x > w - r → (clampX r w d).x = w - r ∧ (clampX r w d).vx = -|d.vx| * 0.5) := by
  rw [clampX]
  split_ifs with h1 h2 <;>
    refine ⟨⟨?_, ?_⟩, fun hc => ⟨?_, ?_⟩, fun hc => ⟨?_, ?_⟩⟩ <;>
    (try simp) <;>
    (first | rfl | linarith)

theorem clampY_spec (r h : ℝ) (d : RDot) (hhr : r ≤ h - r) :
    (r ≤ (clampY r h d).y ∧ (clampY r h d).y ≤ h - r) ∧
    (d.y < r → (clampY r h d).y = r ∧ (clampY r h d).vy = |d.vy| * 0.5) ∧
    (d.y > h - r → (clampY r h d).y = h - r ∧ (clampY r h d).vy = -|d.vy| * 0.5) := by
  rw [clampY]
  split_ifs with h1 h2 <;>
    refine ⟨⟨?_, ?_⟩, fun hc => ⟨?_, ?_⟩, fun hc => ⟨?_, ?_⟩⟩ <;>
    (try simp) <;>
    (first | rfl | linarith)

/-- C3 (amended): boundary handling lives in the exported animation loop, not
in the main application's tick.  There, on a canvas with positive dimensions,
dots of layer 2 and uniform-grid dots re-enter the canvas periodically
(position lands in `[0, w) × [0, h)`, velocity untouched), while dots of
every other layer are clamped to `radius` inside each boundary with the
crossed velocity component reflected inward and damped by 0.5. -/
theorem applyBoundary_spec (layers : List LayerR) (w h : ℝ) (d : RDot)
    (hw : 0 < w) (hh : 0 < h) :
    ((d.layer = some 2 ∨ d.layer = none) →
      (0 ≤ (applyBoundary layers w h d).x ∧ (applyBoundary layers w h d).x < w ∧
       0 ≤ (applyBoundary layers w h d).y ∧ (applyBoundary layers w h d).y < h ∧
       (applyBoundary layers w h d).vx = d.vx ∧ (applyBoundary layers w h d).vy = d.vy)) ∧
    (∀ j, d.layer = some j → j ≠ 2 →
      ∀ r, r = boundaryRadius layers (some j) → r ≤ w - r → r ≤ h - r →
        (r ≤ (applyBoundary layers w h d).x ∧ (applyBoundary layers w h d).x ≤ w - r ∧
         r ≤ (applyBoundary layers w h d).y ∧ (applyBoundary layers w h d).y ≤ h - r) ∧
        (d.x < r → (applyBoundary layers w h d).x = r ∧
            (applyBoundary layers w h d).vx = |d.vx| * 0.5) ∧
        (d.x > w - r → (applyBoundary layers w h d).x = w - r ∧
            (applyBoundary layers w h d).vx = -|d.vx| * 0.5) ∧
        (d.y < r → (applyBoundary layers w h d).y = r ∧
            (applyBoundary layers w h d).vy = |d.vy| * 0.5) ∧
        (d.y > h - r → (applyBoundary layers w h d).y = h - r ∧
            (applyBoundary layers w h d).vy = -|d.vy| * 0.5)) := by
  constructor
  · intro hwrap
    rw [applyBoundary, if_pos ⟨hw, hh⟩, if_pos hwrap]
    have hx := wrap_mem hw d.x
    have hy := wrap_mem hh d.y
    exact ⟨hx.1, hx.2, hy.1, hy.2, rfl, rfl⟩
  · intro j hj hj2 r hr hwr hhr
    have hnotwrap : ¬ (d.layer = some 2 ∨ d.layer = none) := by
      rw [hj]
      rintro (hc | hc)
      · exact hj2 (by simpa using hc)
      · exact Option.noConfusion hc
    rw [applyBoundary, if_pos ⟨hw, hh⟩, if_neg hnotwrap, hj, ← hr]
    have hX := clampX_spec r w d hwr
    have hY := clampY_spec r h (clampX r w d) hhr
    have hyx := clampY_x r h (clampX r w d)
    have hyvx := clampY_vx r h (clampX r w d)
    have hxy := clampX_y r w d
    have hxvy := clampX_vy r w d
    refine ⟨⟨?_, ?_, ?_, ?_⟩, fun hc => ⟨?_, ?_⟩, fun hc => ⟨?_, ?_⟩,
      fun hc => ⟨?_, ?_⟩, fun hc => ⟨?_, ?_⟩⟩
    · rw [hyx]; exact hX.1.1
    · rw [hyx]; exact hX.1.2
    · exact hY.1.1
    · exact hY.1.2
    · rw [hyx]; exact (hX.2.1 hc).1
    · rw [hyvx]; exact (hX.2.1 hc).2
    · rw [hyx]; exact (hX.2.2 hc).1
    · rw [hyvx]; exact (hX.2.2 hc).2
    · rw [(hY.2.1 (by rw [hxy]; exact hc)).1]
    · rw [(hY.2.1 (by rw [hxy]; exact hc)).2, hxvy]
    · rw [(hY.2.2 (by rw [hxy]; exact hc)).1]
    · rw [(hY.2.2 (by rw [hxy]; exact hc)).2, hxvy]

end Dancy

namespace Dancy

/-- Layer used by the C3 witness: bounce radius 5. -/
def bLayer : LayerR := { radius := 5, softness := 0, speedMultiplier := 1 }

/-- Dot used by the C3 witness: a layer-0 dot that has drifted past the left
edge with leftward velocity. -/
def bDot : RDot := { x := -3, y := 50, x0 := -3, y0 := 50, vx := -2, vy := 1, layer := some 0 }

/-- Witness for the amended C3 theorem: on a 100×100 canvas the layer-0 dot
at `x = -3` is clamped to `x = 5` with `vx = |−2| ⋅ 0.5`. -/
theorem applyBoundary_spec_witness :
    (5 ≤ (applyBoundary [bLayer] 100 100 bDot).x ∧
     (applyBoundary [bLayer] 100 100 bDot).x ≤ 100 - 5 ∧
     5 ≤ (applyBoundary [bLayer] 100 100 bDot).y ∧
     (applyBoundary [bLayer] 100 100 bDot).y ≤ 100 - 5) ∧
    (bDot.x < 5 → (applyBoundary [bLayer] 100 100 bDot).x = 5 ∧
        (applyBoundary [bLayer] 100 100 bDot).vx = |bDot.vx| * 0.5) ∧
    (bDot.x > 100 - 5 → (applyBoundary [bLayer] 100 100 bDot).x = 100 - 5 ∧
        (applyBoundary [bLayer] 100 100 bDot).vx = -|bDot.vx| * 0.5) ∧
    (bDot.y < 5 → (applyBoundary [bLayer] 100 100 bDot).y = 5 ∧
        (applyBoundary [bLayer] 100 100 bDot).vy = |bDot.vy| * 0.5) ∧
    (bDot.y > 100 - 5 → (applyBoundary [bLayer] 100 100 bDot).y = 100 - 5 ∧
        (applyBoundary [bLayer] 100 100 bDot).vy = -|bDot.vy| * 0.5) :=
  (applyBoundary_spec [bLayer] 100 100 bDot (by norm_num) (by norm_num)).2
    0 rfl (by norm_num) 5 (by simp [boundaryRadius, bLayer]) (by norm_num) (by norm_num)

/-- Configuration for the C3 counterexample: uniform-grid mode. -/
def farCfg : AnimCfg :=
  { mode := Mode.grid, collisionsEnabled := false, gridRadius := 1, layers := [] }

/-- A uniform-grid dot far beyond the right/bottom edge of a 100×100 canvas. -/
def farDot : RDot :=
  { x := 250, y := 250, x0 := 250, y0 := 250, vx := 0, vy := 0, layer := none }

/-- C3 (counterexample): the main application's tick (animation.js) applies
no boundary handling at all.  On a 100×100 canvas, a uniform-grid dot at
`x = y = 250` under a zero field keeps `x = 250` after a full tick — it is
neither wrapped into `[0, 100)` (as the claim requires for grid dots) nor
clamped inside the boundary. -/
theorem main_tick_no_boundary :
    (tick (fun _ _ _ => (0, 0)) farCfg 0 1 [farDot]).map (fun d => d.x) = [250] ∧
    ¬ ((250 : ℝ) < 100) := by
  constructor
  · simp [tick, handleCollisions, integrateDot, layerSpeed, farCfg, farDot]
  · norm_num

end Dancy
